import Mathlib

/-!
Shallow embedding of the layered NFT generation core of the repository
(`index.js` generator, the `Generator` class, and the `SupabaseStorage`
adapter).  Pure geometry is modelled over `ℚ` (the source computes with
JS numbers on exact decimal constants); stateful compositing is modelled
by explicit state passing, ambient nondeterminism (network listings,
`Math.random`, image loading, draw/save success) by oracle functions,
and JS exceptions by `Except`.
-/

/-- A storage entry as returned by the component repository listing
(`supabase.storage.from("space-babiez").list(fullPath)`); the generator
only ever reads `name`. -/
structure StorageFile where
  name : String
deriving DecidableEq, Repr

/-- One layer of the configuration (`layerConfig` entries): category,
placement type, and the `optional` flag (absent in JS means falsy). -/
structure LayerInfo where
  category : String
  type : String
  optional : Bool := false
deriving DecidableEq, Repr

/-- A filtered candidate file as built inside `getRandomComponent`:
`{ url, type: 'svg' | 'bitmap', name }`. -/
structure FileDesc where
  url : String
  type : String
  name : String
deriving DecidableEq, Repr

/-- The value returned by `getRandomComponent`:
`{ url, name, category, type }`. -/
structure SelectedComponent where
  url : String
  name : String
  category : String
  type : String
deriving DecidableEq, Repr

/-- One metadata attribute `{ trait_type, value }`. -/
structure Attr where
  trait_type : String
  value : String
deriving DecidableEq, Repr

/-- Errors thrown by `getRandomComponent`: a repository listing error is
rethrown, an empty listing on a required layer throws the `EmptyLayer`
message, an all-filtered-out listing on a required layer throws the
`NoRenderableComponent` message. -/
inductive GenError where
  | repoError : GenError
  | emptyLayer : String → GenError
  | noRenderable : String → GenError
deriving DecidableEq, Repr

/-- Destination rectangle on the canvas. -/
structure Rect where
  x : ℚ
  y : ℚ
  w : ℚ
  h : ℚ
deriving DecidableEq, Repr

/-- `SUPABASE_URL` environment configuration (opaque to the geometry and
selection logic: it is only used as a non-empty URL prefix). -/
def SUPABASE_URL : String := "https://supabase.local"

/-- `const outputFolder = "./output/"`. -/
def outputFolder : String := "./output/"

/-- `const width = 512` (canvas width). -/
def canvasWidth : ℚ := 512

/-- `const height = 512` (canvas height). -/
def canvasHeight : ℚ := 512

/-- `layerConfig` from the generator: fixed bottom-to-top layer order. -/
def layerConfig : List LayerInfo :=
  [ ⟨"background", "background", false⟩,
    ⟨"head", "base", false⟩,
    ⟨"eyes", "feature", false⟩,
    ⟨"clothing", "outfit", false⟩,
    ⟨"neck", "accessory", false⟩,
    ⟨"hats", "accessory", false⟩,
    ⟨"binky", "accessory", true⟩,
    ⟨"special", "special", true⟩ ]

/-- `toLowerCase()` (kernel-friendly form of `String.toLower`, which
maps `Char.toLower` over the characters). -/
def strLower (s : String) : String := String.mk (s.data.map Char.toLower)

/-- `endsWith` as a character-list suffix test. -/
def strEndsWith (s post : String) : Bool := post.data.isSuffixOf s.data

/-- `file.name.toLowerCase()` ends with one of the recognized image
extensions (the candidate filter in `getRandomComponent`). -/
def hasImageExt (n : String) : Bool :=
  let l := strLower n
  strEndsWith l ".png" || strEndsWith l ".svg" || strEndsWith l ".jpg" || strEndsWith l ".jpeg"

/-- Node's `path.extname`: the suffix of the name from its last dot,
empty when there is no dot or the only dot leads the name. -/
def extname (n : String) : String :=
  let cs := n.data
  if cs.contains '.' then
    let afterRev := cs.reverse.takeWhile (fun c => c ≠ '.')
    let i := cs.length - afterRev.length - 1
    if i = 0 then "" else String.mk ('.' :: afterRev.reverse)
  else ""

/-- `extension === '.svg' ? 'svg' : 'bitmap'` on the lowercased extname. -/
def fileTypeOf (n : String) : String :=
  if strLower (extname n) = ".svg" then "svg" else "bitmap"

/-- `fileName.substring(0, fileName.lastIndexOf('.')) || fileName`. -/
def stripExt (n : String) : String :=
  let cs := n.data
  if cs.contains '.' then
    let afterRev := cs.reverse.takeWhile (fun c => c ≠ '.')
    let i := cs.length - afterRev.length - 1
    let pre := String.mk (cs.take i)
    if pre = "" then n else pre
  else n

/-- The candidate descriptor built for each retained file. -/
def mkFileDesc (fullPath : String) (f : StorageFile) : FileDesc :=
  { url := SUPABASE_URL ++ "/storage/v1/object/public/space-babiez/" ++ fullPath ++ "/" ++ f.name,
    type := fileTypeOf f.name,
    name := f.name }

/-- The filtered-and-mapped candidate list of `getRandomComponent`. -/
def renderableFiles (fullPath : String) (data : List StorageFile) : List FileDesc :=
  (data.filter (fun f => hasImageExt f.name)).map (mkFileDesc fullPath)

/-- Placeholder for an impossible out-of-range index (never reached when
the random index is in range). -/
def dfltFile : FileDesc := ⟨"", "", ""⟩

/-- The selection step of `getRandomComponent`: for `base`/`feature`
layers with at least one SVG candidate, pick a random SVG; otherwise
pick among all candidates.  `pick n` models `Math.floor(Math.random()*n)`. -/
def selectFile (ltype : String) (files : List FileDesc) (pick : ℕ → ℕ) : FileDesc :=
  if (ltype = "base" ∨ ltype = "feature") ∧ (∃ f ∈ files, f.type = "svg") then
    let svgFiles := files.filter (fun f => f.type == "svg")
    svgFiles.getD (pick svgFiles.length) dfltFile
  else
    files.getD (pick files.length) dfltFile

/-- `getRandomComponent(layerInfo, species)`: the repository listing and
the random source are passed explicitly. -/
def getRandomComponent (layerInfo : LayerInfo) (species : String)
    (listing : Except Unit (List StorageFile)) (pick : ℕ → ℕ) :
    Except GenError (Option SelectedComponent) :=
  let fullPath := species ++ "/" ++ layerInfo.category
  match listing with
  | .error _ => .error .repoError
  | .ok data =>
    if data.length = 0 then
      if layerInfo.optional then .ok none
      else .error (.emptyLayer fullPath)
    else
      let files := renderableFiles fullPath data
      if files.length = 0 then
        if layerInfo.optional then .ok none
        else .error (.noRenderable fullPath)
      else
        let s := selectFile layerInfo.type files pick
        .ok (some { url := s.url, name := s.name,
                    category := layerInfo.category, type := layerInfo.type })

/-- The placement math of `drawLayer`: role-driven destination rectangle
with category-level overrides inside the accessory/default branch. -/
def placeRect (type category : String) (imgW imgH cw ch : ℚ) : Rect :=
  if type = "background" then
    ⟨0, 0, cw, ch⟩
  else if type = "base" then
    let scale := min (cw / imgW) (ch / imgH)
    let dw := imgW * scale
    let dh := imgH * scale
    ⟨(cw - dw) / 2, (ch - dh) * 0.4, dw, dh⟩
  else if type = "feature" then
    let scale := min (cw / imgW * 0.8) (ch / imgH * 0.5)
    let dw := imgW * scale
    let dh := imgH * scale
    ⟨(cw - dw) / 2, ch * 0.3, dw, dh⟩
  else if type = "outfit" then
    let heightScale := min (cw / imgW * 0.9) (ch / imgH * 0.9)
    let widthScale := heightScale * 1.15
    let dw := imgW * widthScale
    let dh := imgH * heightScale
    ⟨(cw - dw) / 2, ch * 0.1, dw, dh⟩
  else
    let scale := min (cw / imgW * 0.7) (ch / imgH * 0.5)
    let dw := imgW * scale
    let dh := imgH * scale
    let dy :=
      if category = "hats" then ch * 0.05
      else if category = "neck" then ch * 0.69
      else if category = "binky" then ch * 0.4
      else ch * 0.2
    ⟨(cw - dw) / 2, dy, dw, dh⟩

/-- Outcome of `loadImage(imageUrl)`: either the decode failed, or an
image with the given natural dimensions was produced. -/
inductive LoadResult where
  | fail : LoadResult
  | ok : ℚ → ℚ → LoadResult
deriving DecidableEq, Repr

/-- Canvas drawing commands issued by the generator, in order. -/
inductive PaintOp where
  | clearRect : PaintOp
  | fillRect : String → PaintOp
  | fillText : String → PaintOp
  | drawImage : Rect → PaintOp
deriving DecidableEq, Repr

/-- `drawLayer(imageInfo, id)`: returns whether the layer was drawn plus
the paint commands issued.  A missing/empty-url component is skipped; a
decode failure or a draw failure falls back to an opaque white fill for
`background`-typed layers (reported as drawn) and is a skip otherwise. -/
def drawLayer (imageInfo : Option SelectedComponent) (load : LoadResult)
    (drawOk : Bool) (cw ch : ℚ) : Bool × List PaintOp :=
  match imageInfo with
  | none => (false, [])
  | some info =>
    if info.url = "" then (false, [])
    else
      match load with
      | .fail =>
        if info.type = "background" then (true, [PaintOp.fillRect "#FFFFFF"])
        else (false, [])
      | .ok imgW imgH =>
        let r := placeRect info.type info.category imgW imgH cw ch
        if drawOk then (true, [PaintOp.drawImage r])
        else if info.type = "background" then (true, [PaintOp.fillRect "#FFFFFF"])
        else (false, [])

/-- Ambient nondeterminism of one generation: per-iteration repository
listings, random indices, image-load outcomes, draw success, and
per-path save success. -/
structure GenOracle where
  listing : ℕ → Except Unit (List StorageFile)
  pick : ℕ → ℕ → ℕ
  load : ℕ → LoadResult
  drawOk : ℕ → Bool
  saveOk : String → Bool

/-- Mutable state of the compositing loop of `generate2DImage`:
accumulated attributes, the drawn-categories set, the
`backgroundDrawn` flag, and the paint commands issued so far. -/
structure GenState where
  attrs : List Attr
  drawn : List String
  backgroundDrawn : Bool
  paints : List PaintOp

/-- One iteration of the compositing loop: duplicate-category guard,
component selection (errors caught, logged and absorbed), draw, and
conditional attribute append. -/
def genStep (species : String) (o : GenOracle) (st : GenState)
    (p : ℕ × LayerInfo) : GenState :=
  let i := p.1
  let layerInfo := p.2
  if layerInfo.category ∈ st.drawn then st
  else
    match getRandomComponent layerInfo species (o.listing i) (o.pick i) with
    | .error _ => st
    | .ok none => st
    | .ok (some componentInfo) =>
      let fileNameWithoutExt := stripExt componentInfo.name
      let dres := drawLayer (some componentInfo) (o.load i) (o.drawOk i) canvasWidth canvasHeight
      let st1 : GenState := { st with paints := st.paints ++ dres.2 }
      let st2 : GenState :=
        if layerInfo.category = "background" then { st1 with backgroundDrawn := dres.1 }
        else st1
      if dres.1 then
        { st2 with
          drawn := layerInfo.category :: st2.drawn,
          attrs := st2.attrs ++ [⟨layerInfo.category, fileNameWithoutExt⟩] }
      else st2

/-- State at loop entry: cleared white canvas and the species attribute
already appended. -/
def initState (species : String) : GenState :=
  { attrs := [⟨"species", species⟩],
    drawn := [],
    backgroundDrawn := false,
    paints := [PaintOp.clearRect, PaintOp.fillRect "#FFFFFF"] }

/-- The whole compositing loop of `generate2DImage` over the layer
configuration in declared order. -/
def runLayers (cfg : List LayerInfo) (species : String) (o : GenOracle) : GenState :=
  cfg.enum.foldl (genStep species o) (initState species)

/-- Loop invariant of the compositing loop: attribute trait types are
pairwise distinct, the species attribute heads the list, and every
attribute is either the species one or matches a drawn category. -/
def GenInv (species : String) (st : GenState) : Prop :=
  ((st.attrs.map (fun a => a.trait_type)).Nodup)
  ∧ st.attrs.head? = some ⟨"species", species⟩
  ∧ (∀ a ∈ st.attrs, a.trait_type = "species" ∨ a.trait_type ∈ st.drawn)

/-- `generate2DImage`'s result record `{ nftPath, attributes, species }`. -/
structure GenResult where
  nftPath : String
  attributes : List Attr
  species : String
deriving DecidableEq, Repr

/-- The body of `generate2DImage`'s outer `try`: run the loop, then save
(first to the primary path, then to the fallback path; a second save
failure is the uncaught exception that reaches the outer catch). -/
def generate2DImageBody (id : ℕ) (cfg : List LayerInfo) (species : String)
    (o : GenOracle) : Except Unit (GenResult × List PaintOp) :=
  let st := runLayers cfg species o
  let nftPath := outputFolder ++ species ++ "_nft_" ++ toString id ++ ".png"
  if o.saveOk nftPath then .ok (⟨nftPath, st.attrs, species⟩, st.paints)
  else
    let altPath := outputFolder ++ "fallback_" ++ species ++ "_" ++ toString id ++ ".png"
    if o.saveOk altPath then .ok (⟨altPath, st.attrs, species⟩, st.paints)
    else .error ()

/-- `generate2DImage(id)`: the outer catch paints the magenta error
canvas with overlay text and returns the error-tagged result.  The
emergency `writeFileSync` inside the catch is itself unguarded, so when
that write also fails the exception escapes `generate2DImage`. -/
def generate2DImage (id : ℕ) (cfg : List LayerInfo) (species : String)
    (o : GenOracle) : Except Unit (GenResult × List PaintOp) :=
  match generate2DImageBody id cfg species o with
  | .ok r => .ok r
  | .error _ =>
    let emergencyPath := outputFolder ++ "emergency_" ++ toString id ++ ".png"
    if o.saveOk emergencyPath then
      .ok (⟨emergencyPath, [⟨"error", "generation_failed"⟩], "error"⟩,
           [PaintOp.clearRect, PaintOp.fillRect "#FF00FF",
            PaintOp.fillText ("Error generating NFT #" ++ toString id)])
    else .error ()

/-- Projection of a generation outcome to its species and trait types;
`none` when the call raised. -/
def resultView (e : Except Unit (GenResult × List PaintOp)) :
    Option (String × List String) :=
  match e with
  | .ok r => some (r.1.species, r.1.attributes.map (fun a => a.trait_type))
  | .error _ => none

/-- One iteration of the `generateMultipleNFTs` batch loop: a per-item
failure is caught and logged, a success is appended to the results. -/
def batchStep (gen : ℕ → Except Unit GenResult) (results : List GenResult)
    (i : ℕ) : List GenResult :=
  match gen i with
  | .ok r => results ++ [r]
  | .error _ => results

/-- `generateMultipleNFTs(count)`: sequential loop over identifiers
`1..count`, never aborted by a per-item failure. -/
def generateMultipleNFTs (count : ℕ) (gen : ℕ → Except Unit GenResult) :
    List GenResult :=
  (List.range' 1 count).foldl (batchStep gen) []

/-- A flat model of the output directory: association list from path to
file content (most recent write first). -/
def storeGet (st : List (String × ℕ)) (k : String) : Option ℕ :=
  match st with
  | [] => none
  | (k', v) :: rest => if k' = k then some v else storeGet rest k

/-- `fs.copyFileSync(src, dst)`: throws when the copy fails or the
source is missing, otherwise overwrites `dst` with the source content. -/
def copyFile (st : List (String × ℕ)) (src dst : String) (ok : Bool) :
    Except Unit (List (String × ℕ)) :=
  if ok then
    match storeGet st src with
    | some c => .ok ((dst, c) :: st)
    | none => .error ()
  else .error ()

/-- `pixelateImage(inputPath, outputPath)`: missing input returns null;
otherwise with `skipPixelation` unset, a successful Jimp round-trip
writes the pixelated content, and any pixelation error falls back to
copying the original (null when even the copy fails).  Returns the
written path (or null) together with the updated file store. -/
def pixelateImage (st : List (String × ℕ)) (inputPath outputPath : String)
    (skipPix jimpOk copyOk : Bool) (pixelFn : ℕ → ℕ) :
    Option String × List (String × ℕ) :=
  match storeGet st inputPath with
  | none => (none, st)
  | some content =>
    if skipPix then
      match copyFile st inputPath outputPath copyOk with
      | .ok st' => (some outputPath, st')
      | .error _ => (none, st)
    else if jimpOk then (some outputPath, (outputPath, pixelFn content) :: st)
    else
      match copyFile st inputPath outputPath copyOk with
      | .ok st' => (some outputPath, st')
      | .error _ => (none, st)

/-- Step 2 of `generateNFT`: invoke `pixelateImage` and, when it yields
null or a non-existent file (or throws), fall back to copying the
original to the pixelated path; only a failing fallback copy lets an
exception escape. -/
def generateNFTPixelStep (st : List (String × ℕ)) (nftPath pixelatedPath : String)
    (skipPix jimpOk copyOk copy2Ok : Bool) (pixelFn : ℕ → ℕ) :
    Except Unit (String × List (String × ℕ)) :=
  let res := pixelateImage st nftPath pixelatedPath skipPix jimpOk copyOk pixelFn
  match res.1 with
  | some p =>
    if (storeGet res.2 p).isSome then .ok (p, res.2)
    else
      match copyFile res.2 nftPath pixelatedPath copy2Ok with
      | .ok st' => .ok (pixelatedPath, st')
      | .error _ => .error ()
  | none =>
    match copyFile res.2 nftPath pixelatedPath copy2Ok with
    | .ok st' => .ok (pixelatedPath, st')
    | .error _ => .error ()

/-- Concrete run: every layer folder holds one bitmap `a.png`, except
the required `head` layer (iteration 1) whose listing is empty; loading,
drawing and saving succeed. -/
def headEmptyOracle : GenOracle :=
  { listing := fun i => if i = 1 then .ok [] else .ok [⟨"a.png"⟩],
    pick := fun _ _ => 0,
    load := fun _ => .ok 512 512,
    drawOk := fun _ => true,
    saveOk := fun _ => true }

/-- A configuration (legal for the `Generator` class, which accepts any
`config.layerConfig`) containing a layer whose category is the literal
string `"species"`. -/
def speciesCategoryConfig : List LayerInfo := [⟨"species", "accessory", false⟩]

/-- Concrete run for `speciesCategoryConfig`: one bitmap candidate
`x.png`, loading/drawing/saving succeed. -/
def speciesCategoryOracle : GenOracle :=
  { listing := fun _ => .ok [⟨"x.png"⟩],
    pick := fun _ _ => 0,
    load := fun _ => .ok 512 512,
    drawOk := fun _ => true,
    saveOk := fun _ => true }

/-- A single required background layer. -/
def backgroundOnlyConfig : List LayerInfo := [⟨"background", "background", false⟩]

/-- Concrete run: the background candidate `bg.png` exists but its image
fails to decode (`loadImage` rejects). -/
def backgroundDecodeFailOracle : GenOracle :=
  { listing := fun _ => .ok [⟨"bg.png"⟩],
    pick := fun _ _ => 0,
    load := fun _ => .fail,
    drawOk := fun _ => true,
    saveOk := fun _ => false }

/-- Concrete run in which the primary and fallback saves fail — driving
`generate2DImage` into its catastrophic-fallback catch — while the
emergency write itself succeeds. -/
def emergencySaveOracle : GenOracle :=
  { listing := fun _ => .ok [],
    pick := fun _ _ => 0,
    load := fun _ => .fail,
    drawOk := fun _ => false,
    saveOk := fun p => p == outputFolder ++ "emergency_" ++ toString 3 ++ ".png" }

/-- A concrete successful generation result for the batch witness. -/
def demoResult : GenResult := ⟨"./output/indigo_nft_2.png", [⟨"species", "indigo"⟩], "indigo"⟩

/-- A concrete batch in which identifier 1 fails and identifier 2
succeeds. -/
def demoGen : ℕ → Except Unit GenResult :=
  fun i => if i = 2 then .ok demoResult else .error ()

/-- A concrete candidate list holding one vector and one raster file. -/
def demoFiles : List FileDesc :=
  [ mkFileDesc "indigo/head" ⟨"b.png"⟩, mkFileDesc "indigo/head" ⟨"a.svg"⟩ ]

/-- Helper: the selected entry of a branch of `selectFile` is a real
element of the indexed list when the random index is in range. -/
theorem getD_mem_of_lt {l : List FileDesc} {n : ℕ} (h : n < l.length) :
    l.getD n dfltFile ∈ l := by
  rw [List.getD_eq_getElem l dfltFile h]
  exact List.getElem_mem h

/-- C4: for non-empty candidate lists, a `base`/`feature` layer with at
least one vector-kind (SVG) candidate draws only from the SVG
candidates — uniformly, in that the selected item is exactly the
random-index entry of the SVG sublist and every SVG candidate is
attainable; any other role, or an SVG-free list, draws the random-index
entry of the whole list.  The last conjunct ties the selection step to
`getRandomComponent`. -/
theorem c4_vector_preference (lt : String) (files : List FileDesc) (pick : ℕ → ℕ)
    (hpick : ∀ n, 0 < n → pick n < n) :
    ((lt = "base" ∨ lt = "feature") → (∃ f ∈ files, f.type = "svg") →
       (selectFile lt files pick
          = (files.filter (fun f => f.type == "svg")).getD
              (pick (files.filter (fun f => f.type == "svg")).length) dfltFile
        ∧ (selectFile lt files pick).type = "svg"
        ∧ selectFile lt files pick ∈ files))
    ∧ ((¬ (lt = "base" ∨ lt = "feature") ∨ ¬ (∃ f ∈ files, f.type = "svg")) →
        selectFile lt files pick = files.getD (pick files.length) dfltFile)
    ∧ (∀ f ∈ files.filter (fun f => f.type == "svg"), (lt = "base" ∨ lt = "feature") →
        ∃ pk : ℕ → ℕ, selectFile lt files pk = f)
    ∧ (∀ (L : LayerInfo) (species : String) (data : List StorageFile) (c : SelectedComponent),
        getRandomComponent L species (.ok data) pick = .ok (some c) →
        c = { url := (selectFile L.type (renderableFiles (species ++ "/" ++ L.category) data) pick).url,
              name := (selectFile L.type (renderableFiles (species ++ "/" ++ L.category) data) pick).name,
              category := L.category, type := L.type }) := by
  refine ⟨?_, ?_, ?_, ?_⟩
  · intro hrole hsvg
    have hne : (files.filter (fun f => f.type == "svg")) ≠ [] := by
      obtain ⟨f, hf, hft⟩ := hsvg
      intro hnil
      have hm : f ∈ files.filter (fun f => f.type == "svg") :=
        List.mem_filter.mpr ⟨hf, by simp [hft]⟩
      rw [hnil] at hm
      exact absurd hm (List.not_mem_nil f)
    have hlen : 0 < (files.filter (fun f => f.type == "svg")).length :=
      List.length_pos.mpr hne
    have hIdx := hpick _ hlen
    have hsel : selectFile lt files pick
        = (files.filter (fun f => f.type == "svg")).getD
            (pick (files.filter (fun f => f.type == "svg")).length) dfltFile := by
      unfold selectFile
      rw [if_pos ⟨hrole, hsvg⟩]
    refine ⟨hsel, ?_, ?_⟩
    · rw [hsel, List.getD_eq_getElem _ _ hIdx]
      exact beq_iff_eq.mp (List.mem_filter.mp (List.getElem_mem hIdx)).2
    · rw [hsel]
      exact (List.mem_filter.mp (getD_mem_of_lt hIdx)).1
  · intro hneg
    unfold selectFile
    rw [if_neg (fun hc => by rcases hneg with h | h; exacts [h hc.1, h hc.2])]
  · intro f hf hrole
    obtain ⟨⟨idx, hlt⟩, hidx⟩ := List.get_of_mem hf
    refine ⟨fun _ => idx, ?_⟩
    have hsvg : ∃ g ∈ files, g.type = "svg" :=
      ⟨f, (List.mem_filter.mp hf).1, beq_iff_eq.mp (List.mem_filter.mp hf).2⟩
    unfold selectFile
    rw [if_pos ⟨hrole, hsvg⟩, List.getD_eq_getElem _ _ hlt]
    rw [List.get_eq_getElem] at hidx
    exact hidx
  · intro L species data c h
    simp only [getRandomComponent] at h
    by_cases h0 : data.length = 0
    · rw [if_pos h0] at h
      by_cases hopt : L.optional = true <;> simp [hopt] at h
    · rw [if_neg h0] at h
      by_cases h1 : (renderableFiles (species ++ "/" ++ L.category) data).length = 0
      · rw [if_pos h1] at h
        by_cases hopt : L.optional = true <;> simp [hopt] at h
      · rw [if_neg h1] at h
        simp only [Except.ok.injEq, Option.some.injEq] at h
        exact h.symm

/-- C4 witness: with a raster and a vector candidate and role `base`,
the vector file is selected. -/
theorem c4_vector_preference_witness :
    selectFile "base" demoFiles (fun _ => 0)
        = (demoFiles.filter (fun f => f.type == "svg")).getD 0 dfltFile
      ∧ (selectFile "base" demoFiles (fun _ => 0)).type = "svg"
      ∧ selectFile "base" demoFiles (fun _ => 0) ∈ demoFiles :=
  (c4_vector_preference "base" demoFiles (fun _ => 0) (fun _ hn => hn)).1
    (Or.inl rfl) (by decide)

/-- C7: for every background-role layer, regardless of the source
image's natural dimensions, the destination rectangle is exactly the
full canvas: x = 0, y = 0, width = canvasW, height = canvasH. -/
theorem c7_background_placement (category : String) (imgW imgH cw ch : ℚ) :
    placeRect "background" category imgW imgH cw ch = ⟨0, 0, cw, ch⟩ := by
  unfold placeRect
  rw [if_pos rfl]

/-- C5: for every outfit-role layer, the height scale is
min(canvasW/imgW × 0.9, canvasH/imgH × 0.9), the drawn width is exactly
1.15 times the height-scale-derived width, the rectangle is centered
horizontally using that stretched width, and the vertical offset is
canvasH × 0.1. -/
theorem c5_outfit_placement (category : String) (imgW imgH cw ch : ℚ) :
    placeRect "outfit" category imgW imgH cw ch =
      { x := (cw - imgW * (min (cw / imgW * 0.9) (ch / imgH * 0.9) * 1.15)) / 2,
        y := ch * 0.1,
        w := 1.15 * (imgW * min (cw / imgW * 0.9) (ch / imgH * 0.9)),
        h := imgH * min (cw / imgW * 0.9) (ch / imgH * 0.9) } := by
  unfold placeRect
  rw [if_neg (by decide), if_neg (by decide), if_neg (by decide), if_pos rfl]
  simp only [Rect.mk.injEq]
  exact ⟨trivial, trivial, by ring, trivial⟩

/-- C6: for every accessory-role layer, the uniform scale is
min(canvasW/imgW × 0.7, canvasH/imgH × 0.5), the rectangle is centered
horizontally, and the vertical offset is canvasH × 0.05 for "hats",
canvasH × 0.69 for "neck", canvasH × 0.4 for "binky" and canvasH × 0.2
for any other category. -/
theorem c6_accessory_placement (imgW imgH cw ch : ℚ) (c : String)
    (h1 : c ≠ "hats") (h2 : c ≠ "neck") (h3 : c ≠ "binky") :
    (placeRect "accessory" "hats" imgW imgH cw ch =
      ⟨(cw - imgW * min (cw / imgW * 0.7) (ch / imgH * 0.5)) / 2, ch * 0.05,
       imgW * min (cw / imgW * 0.7) (ch / imgH * 0.5),
       imgH * min (cw / imgW * 0.7) (ch / imgH * 0.5)⟩)
    ∧ (placeRect "accessory" "neck" imgW imgH cw ch =
      ⟨(cw - imgW * min (cw / imgW * 0.7) (ch / imgH * 0.5)) / 2, ch * 0.69,
       imgW * min (cw / imgW * 0.7) (ch / imgH * 0.5),
       imgH * min (cw / imgW * 0.7) (ch / imgH * 0.5)⟩)
    ∧ (placeRect "accessory" "binky" imgW imgH cw ch =
      ⟨(cw - imgW * min (cw / imgW * 0.7) (ch / imgH * 0.5)) / 2, ch * 0.4,
       imgW * min (cw / imgW * 0.7) (ch / imgH * 0.5),
       imgH * min (cw / imgW * 0.7) (ch / imgH * 0.5)⟩)
    ∧ (placeRect "accessory" c imgW imgH cw ch =
      ⟨(cw - imgW * min (cw / imgW * 0.7) (ch / imgH * 0.5)) / 2, ch * 0.2,
       imgW * min (cw / imgW * 0.7) (ch / imgH * 0.5),
       imgH * min (cw / imgW * 0.7) (ch / imgH * 0.5)⟩) := by
  refine ⟨?_, ?_, ?_, ?_⟩ <;>
    unfold placeRect <;>
    rw [if_neg (by decide), if_neg (by decide), if_neg (by decide), if_neg (by decide)]
  · rw [if_pos rfl]
  · rw [if_neg (by decide), if_pos rfl]
  · rw [if_neg (by decide), if_neg (by decide), if_pos rfl]
  · rw [if_neg h1, if_neg h2, if_neg h3]

/-- C6 witness: the four accessory placements at a concrete image and
canvas size, with concrete other-category "misc". -/
theorem c6_accessory_placement_witness :
    (placeRect "accessory" "hats" 100 200 512 512 =
      ⟨(512 - 100 * min ((512 : ℚ) / 100 * 0.7) (512 / 200 * 0.5)) / 2, 512 * 0.05,
       100 * min ((512 : ℚ) / 100 * 0.7) (512 / 200 * 0.5),
       200 * min ((512 : ℚ) / 100 * 0.7) (512 / 200 * 0.5)⟩)
    ∧ (placeRect "accessory" "neck" 100 200 512 512 =
      ⟨(512 - 100 * min ((512 : ℚ) / 100 * 0.7) (512 / 200 * 0.5)) / 2, 512 * 0.69,
       100 * min ((512 : ℚ) / 100 * 0.7) (512 / 200 * 0.5),
       200 * min ((512 : ℚ) / 100 * 0.7) (512 / 200 * 0.5)⟩)
    ∧ (placeRect "accessory" "binky" 100 200 512 512 =
      ⟨(512 - 100 * min ((512 : ℚ) / 100 * 0.7) (512 / 200 * 0.5)) / 2, 512 * 0.4,
       100 * min ((512 : ℚ) / 100 * 0.7) (512 / 200 * 0.5),
       200 * min ((512 : ℚ) / 100 * 0.7) (512 / 200 * 0.5)⟩)
    ∧ (placeRect "accessory" "misc" 100 200 512 512 =
      ⟨(512 - 100 * min ((512 : ℚ) / 100 * 0.7) (512 / 200 * 0.5)) / 2, 512 * 0.2,
       100 * min ((512 : ℚ) / 100 * 0.7) (512 / 200 * 0.5),
       200 * min ((512 : ℚ) / 100 * 0.7) (512 / 200 * 0.5)⟩) :=
  c6_accessory_placement 100 200 512 512 "misc" (by decide) (by decide) (by decide)

/-- Helper: a required layer with an empty repository listing makes the
selector throw the `EmptyLayer` error. -/
theorem getRandomComponent_empty_required {L : LayerInfo} {species : String} {pick : ℕ → ℕ}
    (hopt : L.optional = false) :
    getRandomComponent L species (.ok []) pick
      = .error (.emptyLayer (species ++ "/" ++ L.category)) := by
  simp [getRandomComponent, hopt]

/-- Helper: a successful selection carries the layer's own category and
type into the selected component. -/
theorem getRandomComponent_some_fields {L : LayerInfo} {species : String}
    {listing : Except Unit (List StorageFile)} {pick : ℕ → ℕ} {c : SelectedComponent}
    (h : getRandomComponent L species listing pick = .ok (some c)) :
    c.type = L.type ∧ c.category = L.category := by
  cases listing with
  | error e => simp [getRandomComponent] at h
  | ok data =>
    simp only [getRandomComponent] at h
    by_cases h0 : data.length = 0
    · rw [if_pos h0] at h
      by_cases hopt : L.optional = true <;> simp [hopt] at h
    · rw [if_neg h0] at h
      by_cases h1 : (renderableFiles (species ++ "/" ++ L.category) data).length = 0
      · rw [if_pos h1] at h
        by_cases hopt : L.optional = true <;> simp [hopt] at h
      · rw [if_neg h1] at h
        simp only [Except.ok.injEq, Option.some.injEq] at h
        subst h
        exact ⟨rfl, rfl⟩

/-- Helper: on a decode failure, a non-background layer is not drawn. -/
theorem drawLayer_fail_notbg {c : SelectedComponent} {drawOk : Bool} {cw ch : ℚ}
    (ht : c.type ≠ "background") :
    (drawLayer (some c) .fail drawOk cw ch).1 = false := by
  by_cases hu : c.url = "" <;> simp [drawLayer, hu, ht]

/-- Helper: on a decode failure, a background layer falls back to the
white fill and is reported as drawn. -/
theorem drawLayer_fail_bg {c : SelectedComponent} {drawOk : Bool} {cw ch : ℚ}
    (ht : c.type = "background") (hu : c.url ≠ "") :
    (drawLayer (some c) .fail drawOk cw ch).1 = true := by
  simp [drawLayer, hu, ht]

/-- Helper: a duplicate category is skipped before selection. -/
theorem genStep_skip {species : String} {o : GenOracle} {st : GenState} {i : ℕ}
    {layer : LayerInfo} (hd : layer.category ∈ st.drawn) :
    genStep species o st (i, layer) = st := by
  simp [genStep, hd]

/-- Helper: a selection failure (caught error or optional skip) leaves
the loop state unchanged. -/
theorem genStep_sel_fail {species : String} {o : GenOracle} {st : GenState} {i : ℕ}
    {layer : LayerInfo}
    (h : (∃ e, getRandomComponent layer species (o.listing i) (o.pick i) = .error e)
       ∨ getRandomComponent layer species (o.listing i) (o.pick i) = .ok none) :
    genStep species o st (i, layer) = st := by
  by_cases hd : layer.category ∈ st.drawn
  · exact genStep_skip hd
  · rcases h with ⟨e, hsel⟩ | hsel <;> simp [genStep, hd, hsel]

/-- Helper: a successfully drawn layer appends exactly its category
attribute and records the category as drawn. -/
theorem genStep_drawn {species : String} {o : GenOracle} {st : GenState} {i : ℕ}
    {layer : LayerInfo} {c : SelectedComponent}
    (hd : layer.category ∉ st.drawn)
    (hsel : getRandomComponent layer species (o.listing i) (o.pick i) = .ok (some c))
    (hdr : (drawLayer (some c) (o.load i) (o.drawOk i) canvasWidth canvasHeight).1 = true) :
    (genStep species o st (i, layer)).attrs = st.attrs ++ [⟨layer.category, stripExt c.name⟩]
    ∧ (genStep species o st (i, layer)).drawn = layer.category :: st.drawn := by
  by_cases hbg : layer.category = "background"
  · rw [hbg] at hd
    simp [genStep, hd, hsel, hdr, hbg]
  · simp [genStep, hd, hsel, hdr, hbg]

/-- Helper: a layer that was not drawn leaves the attributes and the
drawn-category set unchanged. -/
theorem genStep_nodraw {species : String} {o : GenOracle} {st : GenState} {i : ℕ}
    {layer : LayerInfo} {c : SelectedComponent}
    (hd : layer.category ∉ st.drawn)
    (hsel : getRandomComponent layer species (o.listing i) (o.pick i) = .ok (some c))
    (hdr : (drawLayer (some c) (o.load i) (o.drawOk i) canvasWidth canvasHeight).1 = false) :
    (genStep species o st (i, layer)).attrs = st.attrs
    ∧ (genStep species o st (i, layer)).drawn = st.drawn := by
  by_cases hbg : layer.category = "background"
  · rw [hbg] at hd
    simp [genStep, hd, hsel, hdr, hbg]
  · simp [genStep, hd, hsel, hdr, hbg]

/-- Helper: the loop invariant is preserved by one iteration as long as
the layer's category is not the literal string "species". -/
theorem genStep_inv (species : String) (o : GenOracle) (st : GenState) (p : ℕ × LayerInfo)
    (hc : p.2.category ≠ "species") (h : GenInv species st) :
    GenInv species (genStep species o st p) := by
  obtain ⟨i, layer⟩ := p
  obtain ⟨h1, h2, h3⟩ := h
  by_cases hd : layer.category ∈ st.drawn
  · rw [genStep_skip hd]
    exact ⟨h1, h2, h3⟩
  · cases hsel : getRandomComponent layer species (o.listing i) (o.pick i) with
    | error e =>
      rw [genStep_sel_fail (Or.inl ⟨e, hsel⟩)]
      exact ⟨h1, h2, h3⟩
    | ok oc =>
      cases oc with
      | none =>
        rw [genStep_sel_fail (Or.inr hsel)]
        exact ⟨h1, h2, h3⟩
      | some c =>
        by_cases hdr :
            (drawLayer (some c) (o.load i) (o.drawOk i) canvasWidth canvasHeight).1 = true
        · obtain ⟨ha, hw⟩ := genStep_drawn hd hsel hdr
          refine ⟨?_, ?_, ?_⟩
          · rw [ha, List.map_append, List.nodup_append_comm]
            simp only [List.map_cons, List.map_nil, List.singleton_append]
            rw [List.nodup_cons]
            refine ⟨?_, h1⟩
            intro hmem
            obtain ⟨a, ha', hft⟩ := List.mem_map.mp hmem
            rcases h3 a ha' with hsp | hdw
            · exact hc (by rw [← hft]; exact hsp)
            · exact hd (hft ▸ hdw)
          · rw [ha]
            cases hat : st.attrs with
            | nil => rw [hat] at h2; simp at h2
            | cons a t =>
              rw [hat] at h2
              simpa using h2
          · intro a hmem
            rw [ha] at hmem
            rcases List.mem_append.mp hmem with hma | hma
            · rcases h3 a hma with hsp | hdw
              · exact Or.inl hsp
              · refine Or.inr ?_
                rw [hw]
                exact List.mem_cons_of_mem _ hdw
            · refine Or.inr ?_
              rw [hw]
              simp only [List.mem_singleton] at hma
              rw [hma]
              exact List.mem_cons_self _ _
        · have hdr' :
              (drawLayer (some c) (o.load i) (o.drawOk i) canvasWidth canvasHeight).1 = false := by
            revert hdr
            cases (drawLayer (some c) (o.load i) (o.drawOk i) canvasWidth canvasHeight).1 <;> simp
          obtain ⟨ha, hw⟩ := genStep_nodraw hd hsel hdr'
          exact ⟨by rw [ha]; exact h1, by rw [ha]; exact h2,
            fun a hm => by rw [ha] at hm; rw [hw]; exact h3 a hm⟩

/-- Helper: the loop invariant is preserved by the whole fold. -/
theorem runLayers_inv_aux (species : String) (o : GenOracle) :
    ∀ (pairs : List (ℕ × LayerInfo)) (st : GenState),
      (∀ p ∈ pairs, p.2.category ≠ "species") → GenInv species st →
      GenInv species (pairs.foldl (genStep species o) st) := by
  intro pairs
  induction pairs with
  | nil => intro st _ h; simpa using h
  | cons q t ih =>
    intro st hp h
    simp only [List.foldl_cons]
    exact ih _ (fun p hm => hp p (List.mem_cons_of_mem q hm))
      (genStep_inv species o st q (hp q (List.mem_cons_self q t)) h)

/-- Helper: the invariant holds at loop entry. -/
theorem initState_inv (species : String) : GenInv species (initState species) := by
  refine ⟨by simp [initState], rfl, ?_⟩
  intro a ha
  simp only [initState, List.mem_singleton] at ha
  rw [ha]
  exact Or.inl rfl

/-- Helper: the batch loop only ever appends, so accumulated results
survive the rest of the loop. -/
theorem batchStep_mem_mono (gen : ℕ → Except Unit GenResult) :
    ∀ (l : List ℕ) (acc : List GenResult) (r : GenResult),
      r ∈ acc → r ∈ l.foldl (batchStep gen) acc := by
  intro l
  induction l with
  | nil => intro acc r h; simpa using h
  | cons j t ih =>
    intro acc r h
    simp only [List.foldl_cons]
    refine ih _ r ?_
    unfold batchStep
    cases hg : gen j with
    | ok s => exact List.mem_append_left _ h
    | error e => exact h

/-- Helper: every per-identifier success lands in the batch results,
whatever happens on the other identifiers. -/
theorem batch_foldl_mem (gen : ℕ → Except Unit GenResult) :
    ∀ (l : List ℕ) (acc : List GenResult) (i : ℕ) (r : GenResult),
      i ∈ l → gen i = .ok r → r ∈ l.foldl (batchStep gen) acc := by
  intro l
  induction l with
  | nil => intro acc i r h _; exact absurd h (List.not_mem_nil i)
  | cons j t ih =>
    intro acc i r h hgen
    simp only [List.foldl_cons]
    rcases List.mem_cons.mp h with h | h
    · subst h
      refine batchStep_mem_mono gen t _ r ?_
      unfold batchStep
      rw [hgen]
      exact List.mem_append_right _ (by simp)
    · exact ih _ i r h hgen

/-- C1 counterexample: the `head` layer is required and its listing is
empty, so the selector throws `EmptyLayer`, yet the generation attempt
completes successfully (normal species, normal save path) with the
`head` category silently absent from the trait list. -/
theorem c1_counterexample :
    getRandomComponent ⟨"head", "base", false⟩ "indigo" (.ok []) (fun _ => 0)
        = .error (.emptyLayer "indigo/head")
    ∧ headEmptyOracle.listing 1 = .ok []
    ∧ resultView (generate2DImage 1 layerConfig "indigo" headEmptyOracle)
        = some ("indigo",
            ["species", "background", "eyes", "clothing", "neck", "hats", "binky", "special"]) :=
  ⟨rfl, rfl, by decide⟩

/-- C1 (amended): with zero candidates for a required layer the
selector does fail with `EmptyLayer`, but the per-layer catch inside
the compositing loop absorbs it: the iteration leaves the state (and
hence the trait list) unchanged, and whenever the save succeeds the
generation attempt still completes successfully via the normal path —
the error never aborts the attempt. -/
theorem c1_amended (species : String) (o : GenOracle) (st : GenState) (i : ℕ)
    (layer : LayerInfo) (cfg : List LayerInfo) (id : ℕ)
    (hopt : layer.optional = false) (hlist : o.listing i = .ok [])
    (hsave : o.saveOk (outputFolder ++ species ++ "_nft_" ++ toString id ++ ".png") = true) :
    getRandomComponent layer species (o.listing i) (o.pick i)
        = .error (.emptyLayer (species ++ "/" ++ layer.category))
    ∧ genStep species o st (i, layer) = st
    ∧ generate2DImage id cfg species o
        = .ok (⟨outputFolder ++ species ++ "_nft_" ++ toString id ++ ".png",
                (runLayers cfg species o).attrs, species⟩,
               (runLayers cfg species o).paints) := by
  have hsel : getRandomComponent layer species (o.listing i) (o.pick i)
      = .error (.emptyLayer (species ++ "/" ++ layer.category)) := by
    rw [hlist]
    exact getRandomComponent_empty_required hopt
  refine ⟨hsel, genStep_sel_fail (Or.inl ⟨_, hsel⟩), ?_⟩
  simp [generate2DImage, generate2DImageBody, hsave, runLayers]

/-- C1 witness: the amended statement at the concrete `head`-empty run. -/
theorem c1_amended_witness :
    getRandomComponent ⟨"head", "base", false⟩ "indigo" (headEmptyOracle.listing 1)
        (headEmptyOracle.pick 1)
        = .error (.emptyLayer ("indigo" ++ "/" ++ "head"))
    ∧ genStep "indigo" headEmptyOracle (initState "indigo") (1, ⟨"head", "base", false⟩)
        = initState "indigo"
    ∧ generate2DImage 1 layerConfig "indigo" headEmptyOracle
        = .ok (⟨outputFolder ++ "indigo" ++ "_nft_" ++ toString 1 ++ ".png",
                (runLayers layerConfig "indigo" headEmptyOracle).attrs, "indigo"⟩,
               (runLayers layerConfig "indigo" headEmptyOracle).paints) :=
  c1_amended "indigo" headEmptyOracle (initState "indigo") 1 ⟨"head", "base", false⟩
    layerConfig 1 rfl rfl rfl

/-- C2 counterexample: a configuration (legal for the `Generator`
class) containing a layer whose category is the literal string
"species" yields a completed trait list with two entries of trait type
"species" — the claimed invariant fails for this configuration. -/
theorem c2_counterexample :
    (runLayers speciesCategoryConfig "indigo" speciesCategoryOracle).attrs
        = [⟨"species", "indigo"⟩, ⟨"species", "x"⟩]
    ∧ ¬ (((runLayers speciesCategoryConfig "indigo" speciesCategoryOracle).attrs.map
          (fun a => a.trait_type)).Nodup)
    ∧ resultView (generate2DImage 1 speciesCategoryConfig "indigo" speciesCategoryOracle)
        = some ("indigo", ["species", "species"]) :=
  ⟨by decide, by decide, by decide⟩

/-- C2 (amended): for every layer configuration in which no layer's
category is the literal string "species", the completed composite's
trait list has pairwise-distinct trait types, starts with the species
trait (hence "species" appears exactly once, first), and is exactly
what the returned result carries on the normal save path. -/
theorem c2_amended (cfg : List LayerInfo) (species : String) (o : GenOracle) (id : ℕ)
    (h : ∀ l ∈ cfg, l.category ≠ "species")
    (hsave : o.saveOk (outputFolder ++ species ++ "_nft_" ++ toString id ++ ".png") = true) :
    ((runLayers cfg species o).attrs.map (fun a => a.trait_type)).Nodup
    ∧ (runLayers cfg species o).attrs.head? = some ⟨"species", species⟩
    ∧ generate2DImage id cfg species o
        = .ok (⟨outputFolder ++ species ++ "_nft_" ++ toString id ++ ".png",
                (runLayers cfg species o).attrs, species⟩,
               (runLayers cfg species o).paints) := by
  have hp : ∀ p ∈ cfg.enum, p.2.category ≠ "species" := by
    intro p hm
    obtain ⟨i, x⟩ := p
    obtain ⟨hlt, hx⟩ := List.mem_enum hm
    simp only
    rw [hx]
    exact h _ (List.getElem_mem hlt)
  have hinv := runLayers_inv_aux species o cfg.enum (initState species) hp (initState_inv species)
  refine ⟨hinv.1, hinv.2.1, ?_⟩
  simp [generate2DImage, generate2DImageBody, hsave, runLayers]

/-- C2 witness: the amended statement at the shipped `layerConfig` (no
category is "species") and a concrete run. -/
theorem c2_amended_witness :
    ((runLayers layerConfig "indigo" headEmptyOracle).attrs.map (fun a => a.trait_type)).Nodup
    ∧ (runLayers layerConfig "indigo" headEmptyOracle).attrs.head?
        = some ⟨"species", "indigo"⟩
    ∧ generate2DImage 1 layerConfig "indigo" headEmptyOracle
        = .ok (⟨outputFolder ++ "indigo" ++ "_nft_" ++ toString 1 ++ ".png",
                (runLayers layerConfig "indigo" headEmptyOracle).attrs, "indigo"⟩,
               (runLayers layerConfig "indigo" headEmptyOracle).paints) :=
  c2_amended layerConfig "indigo" headEmptyOracle 1 (by decide) rfl

/-- C3 counterexample: the background component's image fails to decode
(`loadImage` rejects), yet the completed trait list still carries the
background trait — the layer is reported as drawn via the white-fill
fallback, contradicting the claim for the background layer. -/
theorem c3_counterexample :
    backgroundDecodeFailOracle.load 0 = .fail
    ∧ (runLayers backgroundOnlyConfig "indigo" backgroundDecodeFailOracle).attrs
        = [⟨"species", "indigo"⟩, ⟨"background", "bg"⟩] :=
  ⟨rfl, by decide⟩

/-- C3 (amended): when the selected component's image fails to decode,
a layer whose type is not background is skipped — reported not drawn,
trait list and drawn set unchanged, the composite continuing — while a
background-typed layer falls back to the opaque white fill, is reported
as drawn, and its trait IS appended. -/
theorem c3_amended :
    (∀ (info : SelectedComponent) (drawOk : Bool) (cw ch : ℚ),
        info.type ≠ "background" →
        (drawLayer (some info) .fail drawOk cw ch).1 = false)
    ∧ (∀ (species : String) (o : GenOracle) (st : GenState) (i : ℕ) (layer : LayerInfo),
        layer.type ≠ "background" → o.load i = .fail →
        (genStep species o st (i, layer)).attrs = st.attrs
        ∧ (genStep species o st (i, layer)).drawn = st.drawn)
    ∧ (∀ (info : SelectedComponent) (drawOk : Bool) (cw ch : ℚ),
        info.type = "background" → info.url ≠ "" →
        (drawLayer (some info) .fail drawOk cw ch).1 = true) := by
  refine ⟨fun info drawOk cw ch ht => drawLayer_fail_notbg ht, ?_,
    fun info drawOk cw ch ht hu => drawLayer_fail_bg ht hu⟩
  intro species o st i layer ht hload
  by_cases hd : layer.category ∈ st.drawn
  · rw [genStep_skip hd]
    exact ⟨rfl, rfl⟩
  · cases hsel : getRandomComponent layer species (o.listing i) (o.pick i) with
    | error e =>
      rw [genStep_sel_fail (Or.inl ⟨e, hsel⟩)]
      exact ⟨rfl, rfl⟩
    | ok oc =>
      cases oc with
      | none =>
        rw [genStep_sel_fail (Or.inr hsel)]
        exact ⟨rfl, rfl⟩
      | some c =>
        have hct : c.type = layer.type := (getRandomComponent_some_fields hsel).1
        have hdl : (drawLayer (some c) (o.load i) (o.drawOk i) canvasWidth canvasHeight).1
            = false := by
          rw [hload]
          exact drawLayer_fail_notbg (by rw [hct]; exact ht)
        exact genStep_nodraw hd hsel hdl

/-- C3 witness: the amended statement at concrete feature and
background components and a concrete loop state. -/
theorem c3_amended_witness :
    (drawLayer (some ⟨"u", "e.png", "eyes", "feature"⟩) .fail true 512 512).1 = false
    ∧ ((genStep "indigo" backgroundDecodeFailOracle (initState "indigo")
          (0, ⟨"eyes", "feature", false⟩)).attrs = (initState "indigo").attrs
      ∧ (genStep "indigo" backgroundDecodeFailOracle (initState "indigo")
          (0, ⟨"eyes", "feature", false⟩)).drawn = (initState "indigo").drawn)
    ∧ (drawLayer (some ⟨"u", "bg.png", "background", "background"⟩) .fail true 512 512).1
        = true :=
  ⟨c3_amended.1 ⟨"u", "e.png", "eyes", "feature"⟩ true 512 512 (by decide),
   c3_amended.2.1 "indigo" backgroundDecodeFailOracle (initState "indigo") 0
     ⟨"eyes", "feature", false⟩ (by decide) rfl,
   c3_amended.2.2 ⟨"u", "bg.png", "background", "background"⟩ true 512 512 rfl (by decide)⟩

/-- C8: when the generation pipeline fails catastrophically (the save
and its fallback save both throw, reaching the outer catch) and the
emergency write — the fallback mechanism itself — succeeds, the
generator returns, not raises: the canvas is the magenta error fill
plus overlay text and the trait list is the single entry
`{trait_type: "error", value: "generation_failed"}`.  The batch loop
delivers every other identifier's success regardless of how any one
identifier fails. -/
theorem c8_catastrophic_fallback :
    (∀ (id : ℕ) (cfg : List LayerInfo) (species : String) (o : GenOracle),
       o.saveOk (outputFolder ++ species ++ "_nft_" ++ toString id ++ ".png") = false →
       o.saveOk (outputFolder ++ "fallback_" ++ species ++ "_" ++ toString id ++ ".png") = false →
       o.saveOk (outputFolder ++ "emergency_" ++ toString id ++ ".png") = true →
       generate2DImage id cfg species o =
         .ok (⟨outputFolder ++ "emergency_" ++ toString id ++ ".png",
               [⟨"error", "generation_failed"⟩], "error"⟩,
              [PaintOp.clearRect, PaintOp.fillRect "#FF00FF",
               PaintOp.fillText ("Error generating NFT #" ++ toString id)]))
    ∧ (∀ (count : ℕ) (gen : ℕ → Except Unit GenResult) (i : ℕ) (r : GenResult),
         i ∈ List.range' 1 count → gen i = .ok r →
         r ∈ generateMultipleNFTs count gen) := by
  constructor
  · intro id cfg species o h1 h2 h3
    simp [generate2DImage, generate2DImageBody, h1, h2, h3]
  · intro count gen i r h hgen
    exact batch_foldl_mem gen _ [] i r h hgen

/-- C8 witness: a concrete run whose primary and fallback saves fail
(emergency write succeeding) yields exactly the marked error artifact,
and in a concrete two-item batch whose first item fails the second
item's result is still delivered. -/
theorem c8_catastrophic_fallback_witness :
    generate2DImage 3 layerConfig "indigo" emergencySaveOracle =
      .ok (⟨outputFolder ++ "emergency_" ++ toString 3 ++ ".png",
            [⟨"error", "generation_failed"⟩], "error"⟩,
           [PaintOp.clearRect, PaintOp.fillRect "#FF00FF",
            PaintOp.fillText ("Error generating NFT #" ++ toString 3)])
    ∧ demoResult ∈ generateMultipleNFTs 2 demoGen :=
  ⟨c8_catastrophic_fallback.1 3 layerConfig "indigo" emergencySaveOracle
     (by decide) (by decide) (by decide),
   c8_catastrophic_fallback.2 2 demoGen 2 demoResult (by decide) rfl⟩

/-- C9: when the pixelation transform fails (and the filesystem copy
works), `generateNFT`'s pixelation step still completes and yields the
pixelated path holding an unmodified copy of the primary artifact. -/
theorem c9_pixelation_fallback (st : List (String × ℕ)) (nftPath pixelatedPath : String)
    (content : ℕ) (pixelFn : ℕ → ℕ) (copyOk copy2Ok : Bool)
    (hin : storeGet st nftPath = some content)
    (hcopy : copyOk = true ∨ copy2Ok = true) :
    generateNFTPixelStep st nftPath pixelatedPath false false copyOk copy2Ok pixelFn
        = .ok (pixelatedPath, (pixelatedPath, content) :: st)
      ∧ storeGet ((pixelatedPath, content) :: st) pixelatedPath = some content
      ∧ storeGet ((pixelatedPath, content) :: st) nftPath = some content := by
  have hp : storeGet ((pixelatedPath, content) :: st) pixelatedPath = some content := by
    unfold storeGet
    rw [if_pos rfl]
  have hn : storeGet ((pixelatedPath, content) :: st) nftPath = some content := by
    unfold storeGet
    by_cases he : pixelatedPath = nftPath
    · rw [if_pos he]
    · rw [if_neg he]
      exact hin
  refine ⟨?_, hp, hn⟩
  by_cases hc1 : copyOk = true
  · have hpix : pixelateImage st nftPath pixelatedPath false false copyOk pixelFn
        = (some pixelatedPath, (pixelatedPath, content) :: st) := by
      simp [pixelateImage, hin, copyFile, hc1]
    simp [generateNFTPixelStep, hpix, hp]
  · have hc2 : copy2Ok = true := hcopy.resolve_left hc1
    have hpix : pixelateImage st nftPath pixelatedPath false false copyOk pixelFn
        = (none, st) := by
      simp [pixelateImage, hin, copyFile, hc1]
    simp [generateNFTPixelStep, hpix, copyFile, hc2, hin]

/-- C9 witness: a concrete failing transform with a working copy still
produces the pixelated artifact as a copy of the original. -/
theorem c9_pixelation_fallback_witness :
    generateNFTPixelStep [("./output/indigo_nft_1.png", 42)] "./output/indigo_nft_1.png"
        "./output/indigo_nft_1_pixelated.png" false false true true (fun n => n)
        = .ok ("./output/indigo_nft_1_pixelated.png",
               [("./output/indigo_nft_1_pixelated.png", 42), ("./output/indigo_nft_1.png", 42)])
      ∧ storeGet [("./output/indigo_nft_1_pixelated.png", 42), ("./output/indigo_nft_1.png", 42)]
          "./output/indigo_nft_1_pixelated.png" = some 42
      ∧ storeGet [("./output/indigo_nft_1_pixelated.png", 42), ("./output/indigo_nft_1.png", 42)]
          "./output/indigo_nft_1.png" = some 42 :=
  c9_pixelation_fallback [("./output/indigo_nft_1.png", 42)] "./output/indigo_nft_1.png"
    "./output/indigo_nft_1_pixelated.png" 42 (fun n => n) true true rfl (Or.inl rfl)

/-- C10: every layer whose type is none of background, base, feature or
outfit — the "special" role included — is placed by the generic
accessory math, and a category that is none of hats/neck/binky gets the
default vertical offset canvasH × 0.2. -/
theorem c10_special_placement (t c : String) (imgW imgH cw ch : ℚ)
    (ht1 : t ≠ "background") (ht2 : t ≠ "base") (ht3 : t ≠ "feature") (ht4 : t ≠ "outfit")
    (hc1 : c ≠ "hats") (hc2 : c ≠ "neck") (hc3 : c ≠ "binky") :
    placeRect t c imgW imgH cw ch =
      ⟨(cw - imgW * min (cw / imgW * 0.7) (ch / imgH * 0.5)) / 2, ch * 0.2,
       imgW * min (cw / imgW * 0.7) (ch / imgH * 0.5),
       imgH * min (cw / imgW * 0.7) (ch / imgH * 0.5)⟩ := by
  unfold placeRect
  rw [if_neg ht1, if_neg ht2, if_neg ht3, if_neg ht4, if_neg hc1, if_neg hc2, if_neg hc3]

/-- C10 witness: the "special" role and category (as configured in
`layerConfig`) at a concrete image and canvas size. -/
theorem c10_special_placement_witness :
    placeRect "special" "special" 100 200 512 512 =
      ⟨(512 - 100 * min ((512 : ℚ) / 100 * 0.7) (512 / 200 * 0.5)) / 2, 512 * 0.2,
       100 * min ((512 : ℚ) / 100 * 0.7) (512 / 200 * 0.5),
       200 * min ((512 : ℚ) / 100 * 0.7) (512 / 200 * 0.5)⟩ :=
  c10_special_placement "special" "special" 100 200 512 512 (by decide) (by decide)
    (by decide) (by decide) (by decide) (by decide) (by decide)
